import Mathlib

/-!
Shallow embedding of the register allocator in reg_alloc.c
(doRegisterAllocation and its data model), together with theorems
checking the natural-language specification against it.

Conventions of the embedding:
* C arrays become Lean lists indexed with List.getD / List.set.
* Machine Ints of the source hold only small values here; they are
  embedded as Lean Int (no overflow is reachable in the scans).
* panic / vassert calls become Except.error with the diagnostic text.
* The target-specific callbacks (getRegUsage, mapRegs, genSpill,
  genRestore) are function parameters, as in the C signature.
-/

set_option autoImplicit false

/-- An HReg handle: virtual flag, register class, and index number.
The allocator reads it only through hregIsVirtual, hregClass and
hregNumber, mirroring the opaque handle of the source. -/
structure HReg where
  virt : Bool
  cls : Nat
  num : Int
deriving DecidableEq, Repr

def hregIsVirtual (h : HReg) : Bool := h.virt

def hregClass (h : HReg) : Nat := h.cls

def hregNumber (h : HReg) : Int := h.num

/-- The source's (HReg)(-1) sentinel. -/
def INVALID_HREG : HReg := ⟨false, 0, -1⟩

/-- Register-usage modes HRmRead / HRmWrite / HRmModify. -/
inductive HRegMode where
  | HRmRead
  | HRmWrite
  | HRmModify
deriving DecidableEq, Repr

/-- One HRegUsage record: the ordered (hreg, mode) mentions of one insn. -/
abbrev HRegUsage := List (HReg × HRegMode)

/-- VRegInfo of the source (live range and spill data of one vreg). -/
structure VRegInfo where
  live_after : Int
  dead_before : Int
  spill_offset : Int
  spill_size : Int
  has_preference : Bool
  preferred_rreg : HReg
deriving DecidableEq, Repr

/-- Initialisation of one vreg_info slot (source lines 117-124). -/
def initVRegInfo : VRegInfo :=
  { live_after := -1, dead_before := -1, spill_offset := 0, spill_size := 0,
    has_preference := false, preferred_rreg := INVALID_HREG }

/- --------- Stage 1: compute vreg live ranges --------- -/

/-- Stage-1 processing of a single register mention at insn ii
(source lines 132-161). -/
def stage1Mention (n_vregs : Nat) (ii : Nat) (out : List VRegInfo)
    (m : HReg × HRegMode) : Except String (List VRegInfo) :=
  if hregIsVirtual m.1 = false then .ok out
  else
    let iv := hregNumber m.1
    if 0 ≤ iv ∧ iv < (n_vregs : Int) then
      let k := iv.toNat
      let v := out.getD k initVRegInfo
      match m.2 with
      | .HRmRead =>
          if v.live_after = -1 then
            .error "doRegisterAllocation: first event for vreg is Read"
          else .ok (out.set k { v with dead_before := (ii : Int) })
      | .HRmWrite =>
          .ok (out.set k
            { v with live_after := if v.live_after = -1 then (ii : Int) else v.live_after,
                     dead_before := (ii : Int) + 1 })
      | .HRmModify =>
          if v.live_after = -1 then
            .error "doRegisterAllocation: first event for vreg is Modify"
          else .ok (out.set k { v with dead_before := (ii : Int) + 1 })
    else .error "vex: assertion failed: iv >= 0 && iv < n_vregs"

/-- Stage-1 processing of all mentions of one insn, in listed order. -/
def stage1Insn (n_vregs : Nat) (ii : Nat) :
    List VRegInfo → List (HReg × HRegMode) → Except String (List VRegInfo)
  | out, [] => .ok out
  | out, m :: ms =>
    match stage1Mention n_vregs ii out m with
    | .error e => .error e
    | .ok out2 => stage1Insn n_vregs ii out2 ms

/-- Stage-1 walk over the instructions, in index order (source lines 127-163). -/
def stage1Go {α : Type} (getU : α → HRegUsage) (n_vregs : Nat) :
    Nat → List VRegInfo → List α → Except String (List VRegInfo)
  | _, out, [] => .ok out
  | ii, out, x :: xs =>
    match stage1Insn n_vregs ii out (getU x) with
    | .error e => .error e
    | .ok out2 => stage1Go getU n_vregs (ii + 1) out2 xs

/-- Stage 1 of doRegisterAllocation: vreg live-range scan. -/
def stage1 {α : Type} (getU : α → HRegUsage) (n_vregs : Nat) (instrs : List α) :
    Except String (List VRegInfo) :=
  stage1Go getU n_vregs 0 (List.replicate n_vregs initVRegInfo) instrs

/- --------- Stage 2: compute rreg live ranges --------- -/

/-- RRegInfo of the source: one hard live range. -/
structure RRegInfo where
  rreg : HReg
  live_after : Int
  dead_before : Int
deriving DecidableEq, Repr

/-- The rreg_info array together with its fill counters.  The source
mallocs rreg_info_size = 4 entries and tracks rreg_info_used; the
malloc'd contents are uninitialised, modelled by a fixed junk entry. -/
structure RRegInfoArr where
  size : Nat
  used : Nat
  data : List RRegInfo
deriving DecidableEq, Repr

def junkRRegInfo : RRegInfo := ⟨INVALID_HREG, -1, -1⟩

def initRRegInfoArr : RRegInfoArr :=
  { size := 4, used := 0, data := List.replicate 4 junkRRegInfo }

/-- hregToIndex is declared but not defined in reg_alloc.c.
Modelled from the spec: it returns the index of the handle in
available_real_regs, or -1 when the rreg is not allocatable
(spec sections 4.2 and 9: an rreg-handle-to-index map). -/
def hregToIndex (h : HReg) : List HReg → Int
  | [] => -1
  | r :: rs =>
    if r = h then 0
    else
      let rest := hregToIndex h rs
      if rest = -1 then -1 else rest + 1

/-- Running state of stage 2: per-rreg open range bounds and the
rreg_info accumulator. -/
structure Stage2State where
  la : List Int
  db : List Int
  info : RRegInfoArr
deriving Repr

/-- Stage-2 processing of a single register mention at insn ii
(source lines 197-250).  Note: on HRmWrite the source sets flush
unconditionally and, in the flush block, stores at index
rreg_info_used without ever incrementing rreg_info_used; both are
reproduced faithfully here. -/
def stage2Mention (avail : List HReg) (ii : Nat) (s : Stage2State)
    (m : HReg × HRegMode) : Except String Stage2State :=
  if hregIsVirtual m.1 = true then .ok s
  else
    let ir := hregToIndex m.1 avail
    if ir = -1 then .ok s
    else
      let k := ir.toNat
      match m.2 with
      | .HRmWrite =>
          let flush_la := s.la.getD k (-1)
          let flush_db := s.db.getD k (-1)
          let s2 : Stage2State :=
            { s with la := s.la.set k (ii : Int), db := s.db.set k ((ii : Int) + 1) }
          if s2.info.used = s2.info.size then
            .error "make rreg info array bigger(1)"
          else
            .ok { s2 with info :=
              { s2.info with data := s2.info.data.set s2.info.used ⟨m.1, flush_la, flush_db⟩ } }
      | .HRmRead =>
          if s.la.getD k (-1) = -1 then
            .error "doRegisterAllocation: first event for rreg is Read"
          else .ok { s with db := s.db.set k (ii : Int) }
      | .HRmModify =>
          if s.la.getD k (-1) = -1 then
            .error "doRegisterAllocation: first event for rreg is Modify"
          else .ok { s with db := s.db.set k ((ii : Int) + 1) }

/-- Stage-2 processing of all mentions of one insn, in listed order. -/
def stage2Insn (avail : List HReg) (ii : Nat) :
    Stage2State → List (HReg × HRegMode) → Except String Stage2State
  | s, [] => .ok s
  | s, m :: ms =>
    match stage2Mention avail ii s m with
    | .error e => .error e
    | .ok s2 => stage2Insn avail ii s2 ms

/-- Stage-2 walk over the instructions, in index order. -/
def stage2Go {α : Type} (getU : α → HRegUsage) (avail : List HReg) :
    Nat → Stage2State → List α → Except String Stage2State
  | _, s, [] => .ok s
  | ii, s, x :: xs =>
    match stage2Insn avail ii s (getU x) with
    | .error e => .error e
    | .ok s2 => stage2Go getU avail (ii + 1) s2 xs

/-- Final flush of still-open ranges (source lines 255-264).  The
source indexes available_real_regs with a stray uninitialised
variable ri and its init loop uses a stray i; the only compilable
reading, taken here, is the loop index ir.  The missing increment
of rreg_info_used is reproduced faithfully. -/
def stage2FinishGo (avail : List HReg) (la db : List Int) :
    RRegInfoArr → List Nat → Except String RRegInfoArr
  | info, [] => .ok info
  | info, ir :: rest =>
    if la.getD ir (-1) = -1 then stage2FinishGo avail la db info rest
    else if info.used = info.size then .error "make rreg info array bigger(2)"
    else
      let entry : RRegInfo := ⟨avail.getD ir INVALID_HREG, la.getD ir (-1), db.getD ir (-1)⟩
      stage2FinishGo avail la db { info with data := info.data.set info.used entry } rest

/-- Stage 2 of doRegisterAllocation: rreg hard-live-range scan.
The assert on n_available_real_regs is source line 184. -/
def stage2 {α : Type} (getU : α → HRegUsage) (instrs : List α) (avail : List HReg) :
    Except String RRegInfoArr :=
  if avail.length = 0 then .error "vex: assertion failed: n_available_real_regs > 0"
  else
    match stage2Go getU avail 0
        ⟨List.replicate avail.length (-1), List.replicate avail.length (-1),
         initRRegInfoArr⟩ instrs with
    | .error e => .error e
    | .ok s => stage2FinishGo avail s.la s.db s.info (List.range avail.length)

/- --------- Stage 3: allocate spill slots --------- -/

/-- The inner slot-search loop of stage 3 (source lines 294-296):
index of the first busy value that is at most la, if any. -/
def lowestFit (la : Int) : List Int → Option Nat
  | [] => none
  | b :: bs => if b ≤ la then some 0 else (lowestFit la bs).map (· + 1)

/-- Stage-3 walk over vreg_info in index order (source lines 285-304),
carrying ss_busy_until_before. -/
def stage3Go (busy : List Int) : List VRegInfo → Except String (List VRegInfo)
  | [] => .ok []
  | v :: vs =>
    if v.live_after = -1 then
      match stage3Go busy vs with
      | .error e => .error e
      | .ok rest => .ok (v :: rest)
    else
      match lowestFit v.live_after busy with
      | none => .error "N_SPILL64S is too low"
      | some j =>
        match stage3Go (busy.set j v.dead_before) vs with
        | .error e => .error e
        | .ok rest => .ok ({ v with spill_offset := 8 * (j : Int) } :: rest)

/-- Stage 3 of doRegisterAllocation: spill-slot assignment.
N_SPILL64S is a compile-time constant of the surrounding code base,
taken here as the parameter nss; ss_busy_until_before starts all 0
(source lines 282-283). -/
def stage3 (nss : Nat) (vi : List VRegInfo) : Except String (List VRegInfo) :=
  stage3Go (List.replicate nss 0) vi

/- --------- Stage 5: process instructions --------- -/

/-- Disposition of an allocatable rreg in the running state. -/
inductive RRegDisp where
  | Free
  | Unavail
  | Bound
deriving DecidableEq, Repr

/-- RRegState of the source: running state of one allocatable rreg. -/
structure RRegState where
  rreg : HReg
  disp : RRegDisp
  vreg : HReg
deriving DecidableEq, Repr

def junkRRegState : RRegState := ⟨INVALID_HREG, .Free, INVALID_HREG⟩

/-- Initial running state (source lines 328-332): every available
rreg starts Free with an invalid vreg field. -/
def initRRegState (avail : List HReg) : List RRegState :=
  avail.map (fun r => ⟨r, .Free, INVALID_HREG⟩)

/-- Index of the first element satisfying p, as in the source's
linear scans over the rreg_state array. -/
def firstIdx {β : Type} (p : β → Bool) : List β → Option Nat
  | [] => none
  | b :: bs => if p b then some 0 else (firstIdx p bs).map (· + 1)

/-- The hard live ranges recorded so far: the first used entries of
the rreg_info array. -/
def hardRanges (rinfo : RRegInfoArr) : List RRegInfo :=
  rinfo.data.take rinfo.used

/-- Does the hard range hr cross the boundary of insn ii
(source condition live_after < ii && ii < dead_before)? -/
def crossesAt (hr : RRegInfo) (ii : Nat) : Bool :=
  decide (hr.live_after < (ii : Int) ∧ (ii : Int) < hr.dead_before)

/-- Sanity check 1 (source lines 342-349): every hard range crossing
insn ii has its rreg marked Unavail.  The source's assert indexes
rreg_state directly by the HReg handle; it is modelled here as the
evident handle lookup. -/
def check1 (rinfo : RRegInfoArr) (st : List RRegState) (ii : Nat) : Except String Unit :=
  if (hardRanges rinfo).all (fun hr =>
      !crossesAt hr ii ||
      (match st.find? (fun e => decide (e.rreg = hr.rreg)) with
       | some e => e.disp == .Unavail
       | none => false)) then .ok ()
  else .error "vex: assertion failed: sanity check 1"

/-- Sanity check 2 (source lines 354-367): every Unavail rreg has a
corresponding hard range crossing insn ii.  The three-way disp assert
of line 355 is a tautology of the embedded enum. -/
def check2 (rinfo : RRegInfoArr) (st : List RRegState) (ii : Nat) : Except String Unit :=
  if st.all (fun e =>
      e.disp != .Unavail ||
      (hardRanges rinfo).any (fun hr => decide (hr.rreg = e.rreg) && crossesAt hr ii)) then .ok ()
  else .error "vex: assertion failed: sanity check 2"

/-- Sanity check 3 (source lines 370-376): no two Bound entries hold
the same vreg. -/
def check3Go : List RRegState → Bool
  | [] => true
  | e :: rest =>
    (e.disp != .Bound || rest.all (fun f => f.disp != .Bound || decide (e.vreg ≠ f.vreg)))
      && check3Go rest

def check3 (st : List RRegState) : Except String Unit :=
  if check3Go st then .ok () else .error "vex: assertion failed: sanity check 3"

/-- Sanity check 4 (source lines 380-387): every Bound binding joins
a virtual vreg with a real rreg of the same class. -/
def check4 (st : List RRegState) : Except String Unit :=
  if st.all (fun e =>
      e.disp != .Bound ||
      (decide (hregClass e.rreg = hregClass e.vreg)
        && hregIsVirtual e.vreg && !hregIsVirtual e.rreg)) then .ok ()
  else .error "vex: assertion failed: sanity check 4"

/-- All four per-instruction sanity checks, in source order. -/
def stage5Checks (rinfo : RRegInfoArr) (st : List RRegState) (ii : Nat) : Except String Unit :=
  match check1 rinfo st ii with
  | .error e => .error e
  | .ok _ =>
    match check2 rinfo st ii with
    | .error e => .error e
    | .ok _ =>
      match check3 st with
      | .error e => .error e
      | .ok _ => check4 st

/-- Step (a) of stage 5 (source lines 400-410): expire dead
v-to-r bindings.  Bound entries whose vreg dies before insn ii
become Free with the vreg field cleared; everything else is kept. -/
def expire (n_vregs : Nat) (vi : List VRegInfo) (ii : Nat) :
    List RRegState → Except String (List RRegState)
  | [] => .ok []
  | e :: rest =>
    if e.disp != .Bound then
      match expire n_vregs vi ii rest with
      | .error err => .error err
      | .ok rest2 => .ok (e :: rest2)
    else
      let iv := hregNumber e.vreg
      if 0 ≤ iv ∧ iv < (n_vregs : Int) then
        let e2 :=
          if (vi.getD iv.toNat initVRegInfo).dead_before = (ii : Int) then
            { e with disp := RRegDisp.Free, vreg := INVALID_HREG }
          else e
        match expire n_vregs vi ii rest with
        | .error err => .error err
        | .ok rest2 => .ok (e2 :: rest2)
      else .error "vex: assertion failed: iv >= 0 && iv < n_vregs"

/-- Stage 5 exactly as implemented in the source (lines 335-426):
per instruction it runs the sanity checks and the expiry step (a);
the remainder of the loop body is only comments there.  Returns the
running state at every instruction boundary, final state included. -/
def stage5ImplGo (n_vregs : Nat) (vi : List VRegInfo) (rinfo : RRegInfoArr) :
    Nat → Nat → List RRegState → Except String (List (List RRegState))
  | 0, _, st => .ok [st]
  | fuel + 1, ii, st =>
    match stage5Checks rinfo st ii with
    | .error e => .error e
    | .ok _ =>
      match expire n_vregs vi ii st with
      | .error e => .error e
      | .ok st2 =>
        match stage5ImplGo n_vregs vi rinfo fuel (ii + 1) st2 with
        | .error e => .error e
        | .ok states => .ok (st :: states)

def stage5Impl (n_vregs : Nat) (vi : List VRegInfo) (rinfo : RRegInfoArr)
    (avail : List HReg) (n_instrs : Nat) : Except String (List (List RRegState)) :=
  stage5ImplGo n_vregs vi rinfo n_instrs 0 (initRRegState avail)

/- --------- Stage 5 completion, modelled from the spec --------- -/

/-- Index of the rreg currently Bound to vreg v, if any. -/
def findBound (st : List RRegState) (v : HReg) : Option Nat :=
  firstIdx (fun e => decide (e.disp = RRegDisp.Bound ∧ e.vreg = v)) st

/-- Home spill offset of a vreg, read from vreg_info. -/
def spillOffsetOf (vi : List VRegInfo) (v : HReg) : Int :=
  (vi.getD (hregNumber v).toNat initVRegInfo).spill_offset

/-- Preference hint of a vreg, read from vreg_info (always absent in
this program: stage 4 is stubbed). -/
def prefOf (vi : List VRegInfo) (v : HReg) : Option HReg :=
  let e := vi.getD (hregNumber v).toNat initVRegInfo
  if e.has_preference then some e.preferred_rreg else none

/-- Modelled from the spec: the next conflict of an rreg after insn
ii is the start of its earliest hard live range not yet entered
(section 4.5(c), farthest-use tie-break). -/
def nextConflict (rinfo : RRegInfoArr) (ii : Nat) (r : HReg) : Option Int :=
  (((hardRanges rinfo).filter
      (fun hr => decide (hr.rreg = r) && decide ((ii : Int) ≤ hr.live_after))).map
    (fun hr => hr.live_after)).min?

/-- Is conflict time a strictly later than b (none meaning never)? -/
def laterConflict (a b : Option Int) : Bool :=
  match a, b with
  | none, none => false
  | none, some _ => true
  | some _, none => false
  | some x, some y => decide (y < x)

/-- Indices of Free entries of the wanted class. -/
def freeIdxs (st : List RRegState) (cls : Nat) : List Nat :=
  (List.range st.length).filter (fun k =>
    (st.getD k junkRRegState).disp == RRegDisp.Free
      && (hregClass (st.getD k junkRRegState).rreg == cls))

/-- Modelled from the spec: choice among Free rregs of the right
class (section 4.5(c)): the preferred rreg first, else the one whose
next conflict is furthest in the future, ties to the lowest index. -/
def pickFree (st : List RRegState) (rinfo : RRegInfoArr) (ii : Nat)
    (cls : Nat) (pref : Option HReg) : Option Nat :=
  let cands := freeIdxs st cls
  match pref.bind (fun pr => cands.find? (fun k => decide ((st.getD k junkRRegState).rreg = pr))) with
  | some k => some k
  | none =>
    cands.foldl (fun best k =>
      match best with
      | none => some k
      | some b =>
        if laterConflict (nextConflict rinfo ii (st.getD k junkRRegState).rreg)
            (nextConflict rinfo ii (st.getD b junkRRegState).rreg)
        then some k else some b) none

/-- Is the register r mentioned by the current instruction? -/
def mentionedIn (u : HRegUsage) (r : HReg) : Bool :=
  u.any (fun m => decide (m.1 = r))

/-- Modelled from the spec: the Bound victim of section 4.5(c) is a
Bound rreg whose held vreg is not mentioned in this instruction; the
spec fixes no tie-break, the model takes the lowest index. -/
def pickBoundVictim (st : List RRegState) (u : HRegUsage) : Option Nat :=
  firstIdx (fun e => e.disp == RRegDisp.Bound && !mentionedIn u e.vreg) st

/-- Modelled from the spec: full victim selection of section 4.5(c):
a Free rreg of the class if any, else a Bound one (whose current
value must first be spilled, so the emitted spill is returned with
the index), never an Unavail one. -/
def selectVictim {α : Type} (gS : HReg → Int → α) (vi : List VRegInfo)
    (rinfo : RRegInfoArr) (ii : Nat) (u : HRegUsage) (st : List RRegState)
    (cls : Nat) (pref : Option HReg) : Option (Nat × List α) :=
  match pickFree st rinfo ii cls pref with
  | some k => some (k, [])
  | none =>
    match pickBoundVictim st u with
    | some k =>
      let e := st.getD k junkRRegState
      some (k, [gS e.rreg (spillOffsetOf vi e.vreg)])
    | none => none

/-- Modelled from the spec: section 4.5(b), ends of hard ranges at
insn ii (dead_before = ii): the rreg goes Unavail to Free. -/
def expireHard (ii : Nat) : List RRegInfo → List RRegState → List RRegState
  | [], st => st
  | hr :: hrs, st =>
    if decide (hr.dead_before = (ii : Int)) then
      match firstIdx (fun e => decide (e.rreg = hr.rreg ∧ e.disp = RRegDisp.Unavail)) st with
      | some k =>
        let e := st.getD k junkRRegState
        expireHard ii hrs (st.set k ⟨e.rreg, RRegDisp.Free, INVALID_HREG⟩)
      | none => expireHard ii hrs st
    else expireHard ii hrs st

/-- Modelled from the spec: section 4.5(b), starts of hard ranges at
insn ii (live_after = ii - 1): the rreg goes Unavail; a vreg Bound
there is relocated to a Free rreg of its class if one exists, else
spilled to its home slot (spill emitted before the instruction). -/
def markUnavail {α : Type} (gS : HReg → Int → α) (vi : List VRegInfo)
    (rinfo : RRegInfoArr) (ii : Nat) :
    List RRegInfo → List RRegState → List RRegState × List α
  | [], st => (st, [])
  | hr :: hrs, st =>
    if decide (hr.live_after = (ii : Int) - 1) then
      match firstIdx (fun e => decide (e.rreg = hr.rreg)) st with
      | none => markUnavail gS vi rinfo ii hrs st
      | some k =>
        let e := st.getD k junkRRegState
        let st2 := st.set k ⟨e.rreg, RRegDisp.Unavail, INVALID_HREG⟩
        if e.disp == RRegDisp.Bound then
          match pickFree st2 rinfo ii (hregClass e.vreg) none with
          | some k2 =>
            let e2 := st2.getD k2 junkRRegState
            markUnavail gS vi rinfo ii hrs (st2.set k2 ⟨e2.rreg, RRegDisp.Bound, e.vreg⟩)
          | none =>
            let (st3, code) := markUnavail gS vi rinfo ii hrs st2
            (st3, gS e.rreg (spillOffsetOf vi e.vreg) :: code)
        else markUnavail gS vi rinfo ii hrs st2
    else markUnavail gS vi rinfo ii hrs st

/-- Modelled from the spec: section 4.5(c), reload every vreg read or
modified by the instruction that is not currently bound. -/
def reloadReads {α : Type} (gS gR : HReg → Int → α) (vi : List VRegInfo)
    (rinfo : RRegInfoArr) (ii : Nat) (u : HRegUsage) :
    List (HReg × HRegMode) → List RRegState → Except String (List RRegState × List α)
  | [], st => .ok (st, [])
  | m :: ms, st =>
    if hregIsVirtual m.1
        && (m.2 == HRegMode.HRmRead || m.2 == HRegMode.HRmModify)
        && (findBound st m.1).isNone then
      match selectVictim gS vi rinfo ii u st (hregClass m.1) (prefOf vi m.1) with
      | none => .error "doRegisterAllocation: no suitable rreg for vreg"
      | some (k, pre) =>
        let e := st.getD k junkRRegState
        let st2 := st.set k ⟨e.rreg, RRegDisp.Bound, m.1⟩
        match reloadReads gS gR vi rinfo ii u ms st2 with
        | .error err => .error err
        | .ok (st3, rest) =>
          .ok (st3, pre ++ (gR e.rreg (spillOffsetOf vi m.1) :: rest))
    else
      match reloadReads gS gR vi rinfo ii u ms st with
      | .error err => .error err
      | .ok res => .ok res

/-- Modelled from the spec: section 4.5(d), allocate an rreg for
every vreg written by the instruction that is not currently bound;
no reload is emitted. -/
def allocWrites {α : Type} (gS : HReg → Int → α) (vi : List VRegInfo)
    (rinfo : RRegInfoArr) (ii : Nat) (u : HRegUsage) :
    List (HReg × HRegMode) → List RRegState → Except String (List RRegState × List α)
  | [], st => .ok (st, [])
  | m :: ms, st =>
    if hregIsVirtual m.1 && (m.2 == HRegMode.HRmWrite) && (findBound st m.1).isNone then
      match selectVictim gS vi rinfo ii u st (hregClass m.1) (prefOf vi m.1) with
      | none => .error "doRegisterAllocation: no suitable rreg for vreg"
      | some (k, pre) =>
        let e := st.getD k junkRRegState
        let st2 := st.set k ⟨e.rreg, RRegDisp.Bound, m.1⟩
        match allocWrites gS vi rinfo ii u ms st2 with
        | .error err => .error err
        | .ok (st3, rest) => .ok (st3, pre ++ rest)
    else
      match allocWrites gS vi rinfo ii u ms st with
      | .error err => .error err
      | .ok res => .ok res

/-- Modelled from the spec: section 4.5(e), the vreg-to-rreg mapping
of every vreg mentioned by the instruction; an unbound vreg at this
point is a fatal programming error. -/
def buildMap (st : List RRegState) : List (HReg × HRegMode) → Except String (List (HReg × HReg))
  | [] => .ok []
  | m :: ms =>
    if hregIsVirtual m.1 then
      match findBound st m.1 with
      | some k =>
        match buildMap st ms with
        | .error e => .error e
        | .ok rest => .ok ((m.1, (st.getD k junkRRegState).rreg) :: rest)
      | none => .error "doRegisterAllocation: vreg not bound at rewrite"
    else buildMap st ms

/-- Modelled from the spec: the stage-5 loop completed per section
4.5; the source's loop body ends at comments after the expiry step,
so steps (b) to (e) and the output emission follow the spec.  Hard
range ends are processed before starts at each instruction (the spec
fixes no order). -/
def stage5SpecGo {α : Type} (getU : α → HRegUsage) (mapR : List (HReg × HReg) → α → α)
    (gS gR : HReg → Int → α) (n_vregs : Nat) (vi : List VRegInfo) (rinfo : RRegInfoArr) :
    Nat → List RRegState → List α → Except String (List α)
  | _, _, [] => .ok []
  | ii, st, x :: xs =>
    match stage5Checks rinfo st ii with
    | .error e => .error e
    | .ok _ =>
      match expire n_vregs vi ii st with
      | .error e => .error e
      | .ok st1 =>
        let st1b := expireHard ii (hardRanges rinfo) st1
        let u := getU x
        let (st2, codeb) := markUnavail gS vi rinfo ii (hardRanges rinfo) st1b
        match reloadReads gS gR vi rinfo ii u u st2 with
        | .error e => .error e
        | .ok (st3, codec) =>
          match allocWrites gS vi rinfo ii u u st3 with
          | .error e => .error e
          | .ok (st4, coded) =>
            match buildMap st4 u with
            | .error e => .error e
            | .ok mp =>
              match stage5SpecGo getU mapR gS gR n_vregs vi rinfo (ii + 1) st4 xs with
              | .error e => .error e
              | .ok rest => .ok (codeb ++ codec ++ coded ++ (mapR mp x :: rest))

/-- The whole allocator: stages 1 to 3 and the stage-5 state machine
from the source, the stage-5 completion modelled from the spec.
Stage 4 (preferencing) is a no-op in the source.  nss stands for the
compile-time constant N_SPILL64S. -/
def doRegisterAllocation {α : Type} (getU : α → HRegUsage)
    (mapR : List (HReg × HReg) → α → α) (gS gR : HReg → Int → α)
    (n_vregs : Nat) (instrs : List α) (avail : List HReg) (nss : Nat) :
    Except String (List α) :=
  match stage1 getU n_vregs instrs with
  | .error e => .error e
  | .ok vi =>
    match stage2 getU instrs avail with
    | .error e => .error e
    | .ok rinfo =>
      match stage3 nss vi with
      | .error e => .error e
      | .ok vi2 =>
        stage5SpecGo getU mapR gS gR n_vregs vi2 rinfo 0 (initRRegState avail) instrs

/- --------- Predicates and sample registers used by the theorems --------- -/

/-- The stage-1 postcondition of the spec for one vreg entry. -/
def vregInvariant (n_instrs : Nat) (v : VRegInfo) : Prop :=
  v.live_after = -1 ∨
    (0 ≤ v.live_after ∧ v.live_after < v.dead_before ∧ v.dead_before ≤ (n_instrs : Int))

instance (n_instrs : Nat) (v : VRegInfo) : Decidable (vregInvariant n_instrs v) := by
  unfold vregInvariant; infer_instance

/-- Ordering restriction on one instruction's mention list: no Read of
a vreg index comes after a Write of the same vreg index. -/
def noWriteThenRead (a b : HReg × HRegMode) : Prop :=
  ¬ (hregIsVirtual a.1 = true ∧ hregIsVirtual b.1 = true ∧ hregNumber a.1 = hregNumber b.1 ∧
     a.2 = HRegMode.HRmWrite ∧ b.2 = HRegMode.HRmRead)

instance (a b : HReg × HRegMode) : Decidable (noWriteThenRead a b) := by
  unfold noWriteThenRead; infer_instance

/-- Is there a Read mention of vreg index k in ms? -/
def mentionsReadOf (k : Nat) (ms : List (HReg × HRegMode)) : Prop :=
  ∃ m ∈ ms, hregIsVirtual m.1 = true ∧ hregNumber m.1 = (k : Int) ∧ m.2 = HRegMode.HRmRead

/-- Invariant of the stage-1 scan while instruction ii still has the
mention suffix ms to process. -/
def stage1Inv (ii : Nat) (ms : List (HReg × HRegMode)) (out : List VRegInfo) : Prop :=
  ∀ k : Nat,
    (out.getD k initVRegInfo).live_after = -1 ∨
      (0 ≤ (out.getD k initVRegInfo).live_after ∧
       (out.getD k initVRegInfo).live_after ≤ (ii : Int) ∧
       (out.getD k initVRegInfo).live_after < (out.getD k initVRegInfo).dead_before ∧
       (out.getD k initVRegInfo).dead_before ≤ (ii : Int) + 1 ∧
       ((out.getD k initVRegInfo).live_after = (ii : Int) → ¬ mentionsReadOf k ms))

/-- Invariant of the stage-1 scan between instructions: ii is the
index of the next instruction. -/
def stage1Between (ii : Nat) (out : List VRegInfo) : Prop :=
  ∀ k : Nat,
    (out.getD k initVRegInfo).live_after = -1 ∨
      (0 ≤ (out.getD k initVRegInfo).live_after ∧
       (out.getD k initVRegInfo).live_after < (out.getD k initVRegInfo).dead_before ∧
       (out.getD k initVRegInfo).dead_before ≤ (ii : Int))

/-- Bound entries of a stage-5 running state hold pairwise distinct
vregs. -/
def boundInjective (st : List RRegState) : Prop :=
  ∀ p q : Nat, p < st.length → q < st.length → p ≠ q →
    (st.getD p junkRRegState).disp = RRegDisp.Bound →
    (st.getD q junkRRegState).disp = RRegDisp.Bound →
    (st.getD p junkRRegState).vreg ≠ (st.getD q junkRRegState).vreg

/-- Sample virtual register 0. -/
def v0 : HReg := ⟨true, 0, 0⟩

/-- Sample real registers. -/
def R0 : HReg := ⟨false, 0, 0⟩

def R1 : HReg := ⟨false, 0, 1⟩

/-- Sample vreg_info entries for the witnesses. -/
def viA : VRegInfo := { initVRegInfo with live_after := 0, dead_before := 2 }

def viB : VRegInfo := { initVRegInfo with live_after := 1, dead_before := 3 }

/- --------- Helper lemmas on lists --------- -/

theorem listGetD_set_ne {α : Type} (l : List α) (i j : Nat) (a d : α) (h : i ≠ j) :
    (l.set i a).getD j d = l.getD j d := by
  simp [List.getD, List.getElem?_set_ne h]

theorem listGetD_set_self {α : Type} (l : List α) (i : Nat) (a d : α) (h : i < l.length) :
    (l.set i a).getD i d = a := by
  simp [List.getD, List.getElem?_set_self, h]

theorem listGetD_replicate {α : Type} (n k : Nat) (x d : α) :
    (List.replicate n x).getD k d = if k < n then x else d := by
  by_cases h : k < n
  · rw [List.getD_eq_getElem _ _ (by simpa using h)]
    simp [h]
  · rw [List.getD_eq_default _ _ (by simpa using Nat.le_of_not_lt h)]
    simp [h]

/- --------- Helper lemmas on lowestFit --------- -/

theorem lowestFit_some (la : Int) :
    ∀ (busy : List Int) (j : Nat), lowestFit la busy = some j →
      j < busy.length ∧ busy.getD j 0 ≤ la ∧ ∀ i, i < j → ¬ busy.getD i 0 ≤ la := by
  intro busy
  induction busy with
  | nil => intro j h; simp [lowestFit] at h
  | cons b bs ih =>
    intro j h
    by_cases hb : b ≤ la
    · simp [lowestFit, hb] at h
      subst h
      refine ⟨Nat.succ_pos _, by simpa using hb, ?_⟩
      intro i hi; omega
    · simp [lowestFit, hb] at h
      obtain ⟨j0, hj0, rfl⟩ := h
      obtain ⟨h1, h2, h3⟩ := ih j0 hj0
      refine ⟨by simpa using h1, by simpa using h2, ?_⟩
      intro i hi
      cases i with
      | zero => simpa using hb
      | succ i0 => simpa using h3 i0 (by omega)

theorem lowestFit_none (la : Int) :
    ∀ (busy : List Int), lowestFit la busy = none →
      ∀ i, i < busy.length → ¬ busy.getD i 0 ≤ la := by
  intro busy
  induction busy with
  | nil => intro h i hi; simp at hi
  | cons b bs ih =>
    intro h i hi
    by_cases hb : b ≤ la
    · simp [lowestFit, hb] at h
    · simp [lowestFit, hb] at h
      cases i with
      | zero => simpa using hb
      | succ i0 =>
        simp only [List.getD_cons_succ]
        exact ih h i0 (by simpa using Nat.lt_of_succ_lt_succ hi)

theorem lowestFit_of_min (la : Int) :
    ∀ (busy : List Int) (j : Nat), j < busy.length → busy.getD j 0 ≤ la →
      (∀ i, i < j → ¬ busy.getD i 0 ≤ la) → lowestFit la busy = some j := by
  intro busy
  induction busy with
  | nil => intro j hj; simp at hj
  | cons b bs ih =>
    intro j hj hle hmin
    cases j with
    | zero => simp [lowestFit]; simpa using hle
    | succ j0 =>
      have hb : ¬ b ≤ la := by simpa using hmin 0 (Nat.succ_pos _)
      have := ih j0 (by simpa using Nat.lt_of_succ_lt_succ hj) (by simpa using hle)
        (fun i hi => by simpa using hmin (i + 1) (by omega))
      simp [lowestFit, hb, this]

/- --------- Claim C4 --------- -/

/-- C4: the stage-1 scan walks the instructions in index order and,
for a mention of a virtual register with an in-range index at insn
ii: a Write sets live_after = ii when it is the vreg's first event
and in all cases sets dead_before = ii + 1; a Read sets
dead_before = ii; a Modify sets dead_before = ii + 1 (the Read and
Modify equations hold on the non-aborting first-event-seen path). -/
theorem C4_stage1_transitions {α : Type} (getU : α → HRegUsage) (n_vregs ii : Nat)
    (out : List VRegInfo) (r : HReg) (x : α) (xs : List α)
    (hv : hregIsVirtual r = true) (hlo : 0 ≤ hregNumber r)
    (hhi : hregNumber r < (n_vregs : Int)) :
    (stage1Go getU n_vregs ii out (x :: xs) =
      match stage1Insn n_vregs ii out (getU x) with
      | .error e => .error e
      | .ok out2 => stage1Go getU n_vregs (ii + 1) out2 xs) ∧
    (stage1Mention n_vregs ii out (r, .HRmWrite) =
      .ok (out.set (hregNumber r).toNat
        { out.getD (hregNumber r).toNat initVRegInfo with
            live_after :=
              if (out.getD (hregNumber r).toNat initVRegInfo).live_after = -1
              then (ii : Int)
              else (out.getD (hregNumber r).toNat initVRegInfo).live_after,
            dead_before := (ii : Int) + 1 })) ∧
    ((out.getD (hregNumber r).toNat initVRegInfo).live_after ≠ -1 →
      stage1Mention n_vregs ii out (r, .HRmRead) =
        .ok (out.set (hregNumber r).toNat
          { out.getD (hregNumber r).toNat initVRegInfo with dead_before := (ii : Int) })) ∧
    ((out.getD (hregNumber r).toNat initVRegInfo).live_after ≠ -1 →
      stage1Mention n_vregs ii out (r, .HRmModify) =
        .ok (out.set (hregNumber r).toNat
          { out.getD (hregNumber r).toNat initVRegInfo with dead_before := (ii : Int) + 1 })) := by
  refine ⟨rfl, ?_, ?_, ?_⟩
  · simp [stage1Mention, hv, hlo, hhi]
  · intro hla
    simp only [List.getD, List.get?_eq_getElem?] at hla
    simp [stage1Mention, hv, hlo, hhi, List.getD, hla]
  · intro hla
    simp only [List.getD, List.get?_eq_getElem?] at hla
    simp [stage1Mention, hv, hlo, hhi, List.getD, hla]

/-- Witness for C4 at a concrete input. -/
theorem C4_stage1_transitions_witness :
    hregIsVirtual v0 = true ∧ (0 : Int) ≤ hregNumber v0 ∧ hregNumber v0 < (1 : Int) ∧
    stage1Mention 1 0 [initVRegInfo] (v0, .HRmWrite) =
      .ok [{ initVRegInfo with live_after := 0, dead_before := 1 }] := by
  have h := (C4_stage1_transitions (fun u : HRegUsage => u) 1 0 [initVRegInfo] v0 [] []
    rfl (by decide) (by decide)).2.1
  exact ⟨rfl, by decide, by decide, h⟩

/- --------- Claim C6 --------- -/

/-- C6: stage 3 iterates over the vregs in index order; a vreg with
live_after = -1 is skipped with its entry, spill_offset included,
unchanged; a used vreg is assigned spill_offset = j*8 for the lowest
slot j with ss_busy_until_before[j] at most its live_after, and that
slot's busy bound becomes its dead_before for the rest of the scan;
when no slot below N_SPILL64S fits, allocation aborts fatally. -/
theorem C6_stage3_step (nss : Nat) (busy : List Int) (v : VRegInfo) (vs : List VRegInfo)
    (hlen : busy.length = nss) :
    (stage3 nss vs = stage3Go (List.replicate nss 0) vs) ∧
    (v.live_after = -1 → stage3Go busy (v :: vs) =
      match stage3Go busy vs with
      | .error e => .error e
      | .ok rest => .ok (v :: rest)) ∧
    (∀ j : Nat, v.live_after ≠ -1 → j < nss → busy.getD j 0 ≤ v.live_after →
      (∀ i, i < j → ¬ busy.getD i 0 ≤ v.live_after) →
      stage3Go busy (v :: vs) =
        match stage3Go (busy.set j v.dead_before) vs with
        | .error e => .error e
        | .ok rest => .ok ({ v with spill_offset := 8 * (j : Int) } :: rest)) ∧
    (v.live_after ≠ -1 → (∀ j, j < nss → ¬ busy.getD j 0 ≤ v.live_after) →
      stage3Go busy (v :: vs) = .error "N_SPILL64S is too low") := by
  refine ⟨rfl, ?_, ?_, ?_⟩
  · intro hla
    simp [stage3Go, hla]
  · intro j hla hj hle hmin
    have hfit := lowestFit_of_min v.live_after busy j (hlen ▸ hj) hle hmin
    simp [stage3Go, hla, hfit]
  · intro hla hnone
    cases hfit : lowestFit v.live_after busy with
    | some j =>
      exfalso
      obtain ⟨h1, h2, _⟩ := lowestFit_some v.live_after busy j hfit
      exact hnone j (hlen ▸ h1) h2
    | none => simp [stage3Go, hla, hfit]

/-- Witness for C6 at a concrete input. -/
theorem C6_stage3_step_witness :
    viA.live_after ≠ -1 ∧ (0 : Nat) < 2 ∧ ([(0 : Int), 0].getD 0 0 ≤ viA.live_after) ∧
    stage3Go [(0 : Int), 0] [viA] = .ok [{ viA with spill_offset := 0 }] := by
  have h := (C6_stage3_step 2 [(0 : Int), 0] viA [] rfl).2.2.1 0
    (by decide) (by decide) (by decide) (fun i hi => by omega)
  refine ⟨by decide, by decide, by decide, ?_⟩
  simpa using h

/- --------- Claim C5 --------- -/

/-- C5: the liveness scans abort with the first-event diagnostic
exactly when a Read or Modify mention hits a vreg (stage 1) or an
allocatable rreg (stage 2) with no range opened yet, and never abort
for this reason otherwise; the last conjunct runs scenario S6: a
stream whose first mention of v0 is a Read aborts with the
first-event-is-Read diagnostic. -/
theorem C5_first_event_aborts (n_vregs ii : Nat) (out : List VRegInfo)
    (r q : HReg) (avail : List HReg) (s : Stage2State)
    (hv : hregIsVirtual r = true) (hlo : 0 ≤ hregNumber r)
    (hhi : hregNumber r < (n_vregs : Int))
    (hq : hregIsVirtual q = false) (hir : hregToIndex q avail ≠ -1) :
    (stage1Mention n_vregs ii out (r, .HRmRead) =
        .error "doRegisterAllocation: first event for vreg is Read" ↔
      (out.getD (hregNumber r).toNat initVRegInfo).live_after = -1) ∧
    (stage1Mention n_vregs ii out (r, .HRmModify) =
        .error "doRegisterAllocation: first event for vreg is Modify" ↔
      (out.getD (hregNumber r).toNat initVRegInfo).live_after = -1) ∧
    (stage2Mention avail ii s (q, .HRmRead) =
        .error "doRegisterAllocation: first event for rreg is Read" ↔
      s.la.getD (hregToIndex q avail).toNat (-1) = -1) ∧
    (stage2Mention avail ii s (q, .HRmModify) =
        .error "doRegisterAllocation: first event for rreg is Modify" ↔
      s.la.getD (hregToIndex q avail).toNat (-1) = -1) ∧
    stage1 (fun u : HRegUsage => u) 1 [[(v0, .HRmRead)]] =
      .error "doRegisterAllocation: first event for vreg is Read" := by
  refine ⟨?_, ?_, ?_, ?_, rfl⟩
  · by_cases hla : (out.getD (hregNumber r).toNat initVRegInfo).live_after = -1 <;>
      · simp only [List.getD, List.get?_eq_getElem?] at hla
        simp [stage1Mention, hv, hlo, hhi, List.getD, hla]
  · by_cases hla : (out.getD (hregNumber r).toNat initVRegInfo).live_after = -1 <;>
      · simp only [List.getD, List.get?_eq_getElem?] at hla
        simp [stage1Mention, hv, hlo, hhi, List.getD, hla]
  · by_cases hla : s.la.getD (hregToIndex q avail).toNat (-1) = -1 <;>
      · simp only [List.getD, List.get?_eq_getElem?] at hla
        simp [stage2Mention, hq, hir, List.getD, hla]
  · by_cases hla : s.la.getD (hregToIndex q avail).toNat (-1) = -1 <;>
      · simp only [List.getD, List.get?_eq_getElem?] at hla
        simp [stage2Mention, hq, hir, List.getD, hla]

/-- Witness for C5 at a concrete input. -/
theorem C5_first_event_aborts_witness :
    hregIsVirtual v0 = true ∧ hregIsVirtual R0 = false ∧ hregToIndex R0 [R0] ≠ -1 ∧
    (stage1Mention 1 0 [initVRegInfo] (v0, .HRmRead) =
        .error "doRegisterAllocation: first event for vreg is Read" ↔
      ([initVRegInfo].getD 0 initVRegInfo).live_after = -1) := by
  have h := (C5_first_event_aborts 1 0 [initVRegInfo] v0 R0 [R0]
    ⟨[(-1 : Int)], [(-1 : Int)], initRRegInfoArr⟩ rfl (by decide) (by decide) rfl (by decide)).1
  exact ⟨rfl, rfl, by decide, h⟩

/- --------- Claim C9 --------- -/

/-- C9: step (a) of per-instruction processing at insn ii turns
exactly those rreg_state entries Free (clearing the vreg field)
that are Bound to a vreg whose dead_before equals ii, and keeps
every other entry identical; vreg_info and rreg_info are read-only
inputs of the step, so they are untouched.  The hypothesis is the
source's own assert that Bound vreg numbers are in range. -/
theorem C9_expire_frame (n_vregs : Nat) (vi : List VRegInfo) (ii : Nat) (st : List RRegState)
    (hwf : ∀ e ∈ st, e.disp = RRegDisp.Bound →
      0 ≤ hregNumber e.vreg ∧ hregNumber e.vreg < (n_vregs : Int)) :
    expire n_vregs vi ii st = .ok (st.map (fun e =>
      if e.disp = RRegDisp.Bound ∧
         (vi.getD (hregNumber e.vreg).toNat initVRegInfo).dead_before = (ii : Int)
      then { e with disp := RRegDisp.Free, vreg := INVALID_HREG } else e)) := by
  induction st with
  | nil => rfl
  | cons e rest ih =>
    have hrest := ih (fun f hf => hwf f (List.mem_cons_of_mem _ hf) )
    by_cases hb : e.disp = RRegDisp.Bound
    · have hbounds := hwf e (List.mem_cons_self _ _) hb
      by_cases hdb : (vi.getD (hregNumber e.vreg).toNat initVRegInfo).dead_before = (ii : Int)
      · simp [expire, hb, hbounds, hrest, hdb]
      · simp [expire, hb, hbounds, hrest, hdb]
    · simp [expire, hb, hrest]

/-- Witness for C9 at a concrete input: a binding dead before insn 2
expires; an unrelated Free entry stays. -/
theorem C9_expire_frame_witness :
    (∀ e ∈ [(⟨R0, RRegDisp.Bound, v0⟩ : RRegState), ⟨R1, RRegDisp.Free, INVALID_HREG⟩],
      e.disp = RRegDisp.Bound → 0 ≤ hregNumber e.vreg ∧ hregNumber e.vreg < (1 : Int)) ∧
    expire 1 [viA] 2 [⟨R0, RRegDisp.Bound, v0⟩, ⟨R1, RRegDisp.Free, INVALID_HREG⟩] =
      .ok [⟨R0, RRegDisp.Free, INVALID_HREG⟩, ⟨R1, RRegDisp.Free, INVALID_HREG⟩] := by
  have hwf : ∀ e ∈ [(⟨R0, RRegDisp.Bound, v0⟩ : RRegState), ⟨R1, RRegDisp.Free, INVALID_HREG⟩],
      e.disp = RRegDisp.Bound → 0 ≤ hregNumber e.vreg ∧ hregNumber e.vreg < (1 : Int) := by
    decide
  have h := C9_expire_frame 1 [viA] 2
    [⟨R0, RRegDisp.Bound, v0⟩, ⟨R1, RRegDisp.Free, INVALID_HREG⟩] hwf
  exact ⟨hwf, by simpa using h⟩

/- --------- Claim C2 (code bug): evaluation at a failing input --------- -/

/-- C2: evaluation of the stage-2 scan at a stream with two hard
ranges of R0 (Write at insn 0 and Write at insn 1).  The source never
increments rreg_info_used in its flush block, so every flush lands in
slot 0 and the recorded hard-range list (the used prefix) stays
empty; the final state shows used = 0 with only the overwritten slot
0 changed, and hardRanges of the result is the empty list instead of
the two hard live ranges of R0. -/
theorem C2_flush_lost_eval :
    stage2 (fun u : HRegUsage => u) [[(R0, .HRmWrite)], [(R0, .HRmWrite)]] [R0] =
      .ok { size := 4, used := 0,
            data := [⟨R0, 1, 2⟩, junkRRegInfo, junkRRegInfo, junkRRegInfo] } ∧
    hardRanges { size := 4, used := 0,
                 data := [⟨R0, 1, 2⟩, junkRRegInfo, junkRRegInfo, junkRRegInfo] } = [] := by
  exact ⟨rfl, rfl⟩

/- --------- Claim C3 (corrected) --------- -/

/-- C3 counterexample: a single instruction whose getRegUsage list
mentions v0 as Write and then Read is accepted by the stage-1 scan
with no fatal error, yet the resulting entry has
live_after = dead_before = 0, violating the claimed invariant
live_after < dead_before; hence the invariant does not hold for
every mention order. -/
theorem C3_counterexample :
    stage1 (fun u : HRegUsage => u) 1 [[(v0, .HRmWrite), (v0, .HRmRead)]] =
      .ok [{ initVRegInfo with live_after := 0, dead_before := 0 }] ∧
    ¬ vregInvariant 1 { initVRegInfo with live_after := 0, dead_before := 0 } := by
  exact ⟨rfl, by decide⟩

/- --------- Stage-1 invariant lemmas (for C3) --------- -/

theorem mentionsReadOf_tail {k : Nat} {m : HReg × HRegMode} {ms : List (HReg × HRegMode)}
    (h : ¬ mentionsReadOf k (m :: ms)) : ¬ mentionsReadOf k ms := by
  intro ⟨b, hb, hprop⟩
  exact h ⟨b, List.mem_cons_of_mem _ hb, hprop⟩

theorem stage1Inv_weaken {ii : Nat} {m : HReg × HRegMode} {ms : List (HReg × HRegMode)}
    {out : List VRegInfo} (h : stage1Inv ii (m :: ms) out) : stage1Inv ii ms out := by
  intro k
  rcases h k with h0 | ⟨h1, h2, h3, h4, h5⟩
  · exact Or.inl h0
  · exact Or.inr ⟨h1, h2, h3, h4, fun hla => mentionsReadOf_tail (h5 hla)⟩


theorem stage1Mention_nonvirt (n_vregs ii : Nat) (out : List VRegInfo) (m : HReg × HRegMode)
    (h : hregIsVirtual m.1 = false) : stage1Mention n_vregs ii out m = .ok out := by
  simp [stage1Mention, h]

theorem stage1Mention_oor (n_vregs ii : Nat) (out : List VRegInfo) (m : HReg × HRegMode)
    (hvt : hregIsVirtual m.1 = true)
    (hrange : ¬ (0 ≤ hregNumber m.1 ∧ hregNumber m.1 < (n_vregs : Int))) :
    stage1Mention n_vregs ii out m = .error "vex: assertion failed: iv >= 0 && iv < n_vregs" := by
  rw [stage1Mention]
  rw [if_neg (by simp [hvt]), if_neg hrange]

theorem stage1Mention_eq_read (n_vregs ii : Nat) (out : List VRegInfo) (r : HReg)
    (hvt : hregIsVirtual r = true)
    (hrange : 0 ≤ hregNumber r ∧ hregNumber r < (n_vregs : Int)) :
    stage1Mention n_vregs ii out (r, .HRmRead) =
      (if (out.getD (hregNumber r).toNat initVRegInfo).live_after = -1 then
        .error "doRegisterAllocation: first event for vreg is Read"
      else
        .ok (out.set (hregNumber r).toNat
          { out.getD (hregNumber r).toNat initVRegInfo with dead_before := (ii : Int) })) := by
  rw [stage1Mention]
  rw [if_neg (by simp [hvt]), if_pos hrange]

theorem stage1Mention_eq_write (n_vregs ii : Nat) (out : List VRegInfo) (r : HReg)
    (hvt : hregIsVirtual r = true)
    (hrange : 0 ≤ hregNumber r ∧ hregNumber r < (n_vregs : Int)) :
    stage1Mention n_vregs ii out (r, .HRmWrite) =
      .ok (out.set (hregNumber r).toNat
        { out.getD (hregNumber r).toNat initVRegInfo with
            live_after :=
              if (out.getD (hregNumber r).toNat initVRegInfo).live_after = -1
              then (ii : Int)
              else (out.getD (hregNumber r).toNat initVRegInfo).live_after,
            dead_before := (ii : Int) + 1 }) := by
  rw [stage1Mention]
  rw [if_neg (by simp [hvt]), if_pos hrange]

theorem stage1Mention_eq_modify (n_vregs ii : Nat) (out : List VRegInfo) (r : HReg)
    (hvt : hregIsVirtual r = true)
    (hrange : 0 ≤ hregNumber r ∧ hregNumber r < (n_vregs : Int)) :
    stage1Mention n_vregs ii out (r, .HRmModify) =
      (if (out.getD (hregNumber r).toNat initVRegInfo).live_after = -1 then
        .error "doRegisterAllocation: first event for vreg is Modify"
      else
        .ok (out.set (hregNumber r).toNat
          { out.getD (hregNumber r).toNat initVRegInfo with dead_before := (ii : Int) + 1 })) := by
  rw [stage1Mention]
  rw [if_neg (by simp [hvt]), if_pos hrange]

theorem stage1Inv_mention {n_vregs ii : Nat} {out out2 : List VRegInfo}
    {m : HReg × HRegMode} {ms : List (HReg × HRegMode)}
    (hinv : stage1Inv ii (m :: ms) out)
    (hrel : ∀ b ∈ ms, noWriteThenRead m b)
    (h : stage1Mention n_vregs ii out m = .ok out2) :
    stage1Inv ii ms out2 := by
  obtain ⟨r, mode⟩ := m
  by_cases hv : hregIsVirtual r = false
  · rw [stage1Mention_nonvirt n_vregs ii out (r, mode) hv] at h
    cases h
    exact stage1Inv_weaken hinv
  · have hvt : hregIsVirtual r = true := by revert hv; cases hregIsVirtual r <;> simp
    by_cases hrange : 0 ≤ hregNumber r ∧ hregNumber r < (n_vregs : Int)
    · have hnum : hregNumber r = (((hregNumber r).toNat : Nat) : Int) :=
        (Int.toNat_of_nonneg hrange.1).symm
      generalize hk0 : (hregNumber r).toNat = k0 at hnum
      cases mode with
      | HRmRead =>
        rw [stage1Mention_eq_read n_vregs ii out r hvt hrange, hk0] at h
        by_cases hla : (out.getD k0 initVRegInfo).live_after = -1
        · rw [if_pos hla] at h
          exact Except.noConfusion h
        · rw [if_neg hla] at h
          cases h
          have hlen : k0 < out.length := by
            by_contra hge
            rw [List.getD_eq_default out initVRegInfo (Nat.le_of_not_lt hge)] at hla
            exact hla rfl
          intro k
          by_cases hkk : k = k0
          · subst hkk
            rcases hinv k with h0 | ⟨h1, h2, h3, h4, h5⟩
            · exact absurd h0 hla
            · have hread : mentionsReadOf k ((r, HRegMode.HRmRead) :: ms) :=
                ⟨(r, HRegMode.HRmRead), List.mem_cons_self _ _, hvt, hnum, rfl⟩
              have hlt : (out.getD k initVRegInfo).live_after < (ii : Int) := by
                rcases lt_or_eq_of_le h2 with hlt | heq
                · exact hlt
                · exact absurd hread (h5 heq)
              rw [listGetD_set_self out k _ initVRegInfo hlen]
              refine Or.inr ⟨h1, h2, ?_, ?_, ?_⟩
              · show (out.getD k initVRegInfo).live_after < (ii : Int)
                exact hlt
              · show (ii : Int) ≤ (ii : Int) + 1
                omega
              · intro hbad
                exact absurd hbad (ne_of_lt hlt)
          · rw [listGetD_set_ne out k0 k _ initVRegInfo (fun hh => hkk hh.symm)]
            rcases hinv k with h0 | ⟨h1, h2, h3, h4, h5⟩
            · exact Or.inl h0
            · exact Or.inr ⟨h1, h2, h3, h4, fun hla2 => mentionsReadOf_tail (h5 hla2)⟩
      | HRmWrite =>
        rw [stage1Mention_eq_write n_vregs ii out r hvt hrange, hk0] at h
        cases h
        by_cases hlen : k0 < out.length
        · intro k
          by_cases hkk : k = k0
          · subst hkk
            rw [listGetD_set_self out k _ initVRegInfo hlen]
            by_cases hla : (out.getD k initVRegInfo).live_after = -1
            · rw [if_pos hla]
              refine Or.inr ⟨?_, ?_, ?_, ?_, ?_⟩
              · show (0 : Int) ≤ (ii : Int)
                omega
              · show (ii : Int) ≤ (ii : Int)
                omega
              · show (ii : Int) < (ii : Int) + 1
                omega
              · show (ii : Int) + 1 ≤ (ii : Int) + 1
                omega
              · rintro _ ⟨b, hbms, hbv, hbn, hbr⟩
                exact hrel b hbms ⟨hvt, hbv, by rw [hnum, hbn], rfl, hbr⟩
            · rw [if_neg hla]
              rcases hinv k with h0 | ⟨h1, h2, h3, h4, h5⟩
              · exact absurd h0 hla
              · refine Or.inr ⟨h1, h2, ?_, ?_, ?_⟩
                · show (out.getD k initVRegInfo).live_after < (ii : Int) + 1
                  omega
                · show (ii : Int) + 1 ≤ (ii : Int) + 1
                  omega
                · intro hla2
                  exact mentionsReadOf_tail (h5 hla2)
          · rw [listGetD_set_ne out k0 k _ initVRegInfo (fun hh => hkk hh.symm)]
            rcases hinv k with h0 | ⟨h1, h2, h3, h4, h5⟩
            · exact Or.inl h0
            · exact Or.inr ⟨h1, h2, h3, h4, fun hla2 => mentionsReadOf_tail (h5 hla2)⟩
        · rw [List.set_eq_of_length_le (Nat.le_of_not_lt hlen)]
          exact stage1Inv_weaken hinv
      | HRmModify =>
        rw [stage1Mention_eq_modify n_vregs ii out r hvt hrange, hk0] at h
        by_cases hla : (out.getD k0 initVRegInfo).live_after = -1
        · rw [if_pos hla] at h
          exact Except.noConfusion h
        · rw [if_neg hla] at h
          cases h
          have hlen : k0 < out.length := by
            by_contra hge
            rw [List.getD_eq_default out initVRegInfo (Nat.le_of_not_lt hge)] at hla
            exact hla rfl
          intro k
          by_cases hkk : k = k0
          · subst hkk
            rcases hinv k with h0 | ⟨h1, h2, h3, h4, h5⟩
            · exact absurd h0 hla
            · rw [listGetD_set_self out k _ initVRegInfo hlen]
              refine Or.inr ⟨h1, h2, ?_, ?_, ?_⟩
              · show (out.getD k initVRegInfo).live_after < (ii : Int) + 1
                omega
              · show (ii : Int) + 1 ≤ (ii : Int) + 1
                omega
              · intro hla2
                exact mentionsReadOf_tail (h5 hla2)
          · rw [listGetD_set_ne out k0 k _ initVRegInfo (fun hh => hkk hh.symm)]
            rcases hinv k with h0 | ⟨h1, h2, h3, h4, h5⟩
            · exact Or.inl h0
            · exact Or.inr ⟨h1, h2, h3, h4, fun hla2 => mentionsReadOf_tail (h5 hla2)⟩
    · rw [stage1Mention_oor n_vregs ii out (r, mode) hvt hrange] at h
      exact Except.noConfusion h

theorem stage1Inv_insn {n_vregs ii : Nat} :
    ∀ (u : List (HReg × HRegMode)) (out out2 : List VRegInfo),
      stage1Inv ii u out → u.Pairwise noWriteThenRead →
      stage1Insn n_vregs ii out u = .ok out2 → stage1Inv ii ([] : List (HReg × HRegMode)) out2 := by
  intro u
  induction u with
  | nil =>
    intro out out2 hinv _ h
    cases h
    exact hinv
  | cons m ms ih =>
    intro out out2 hinv hp h
    rw [stage1Insn] at h
    cases hstep : stage1Mention n_vregs ii out m with
    | error e => rw [hstep] at h; exact Except.noConfusion h
    | ok out1 =>
      rw [hstep] at h
      rcases List.pairwise_cons.mp hp with ⟨hrel, hptail⟩
      exact ih out1 out2 (stage1Inv_mention hinv hrel hstep) hptail h

theorem stage1Inv_of_between {ii : Nat} {out : List VRegInfo}
    (h : stage1Between ii out) (u : List (HReg × HRegMode)) : stage1Inv ii u out := by
  intro k
  rcases h k with h0 | ⟨h1, h2, h3⟩
  · exact Or.inl h0
  · refine Or.inr ⟨h1, by omega, h2, by omega, ?_⟩
    intro hla
    omega

theorem stage1Between_of_inv {ii : Nat} {out : List VRegInfo}
    (h : stage1Inv ii ([] : List (HReg × HRegMode)) out) : stage1Between (ii + 1) out := by
  intro k
  rcases h k with h0 | ⟨h1, _, h3, h4, _⟩
  · exact Or.inl h0
  · refine Or.inr ⟨h1, h3, ?_⟩
    push_cast
    omega

theorem stage1Between_go {α : Type} (getU : α → HRegUsage) (n_vregs : Nat) :
    ∀ (xs : List α) (ii : Nat) (out out2 : List VRegInfo),
      stage1Between ii out →
      (∀ x ∈ xs, (getU x).Pairwise noWriteThenRead) →
      stage1Go getU n_vregs ii out xs = .ok out2 →
      stage1Between (ii + xs.length) out2 := by
  intro xs
  induction xs with
  | nil =>
    intro ii out out2 hb _ h
    cases h
    simpa using hb
  | cons x xs ih =>
    intro ii out out2 hb hp h
    rw [stage1Go] at h
    cases hstep : stage1Insn n_vregs ii out (getU x) with
    | error e => rw [hstep] at h; exact Except.noConfusion h
    | ok out1 =>
      rw [hstep] at h
      have hinv1 := stage1Inv_insn (getU x) out out1 (stage1Inv_of_between hb (getU x))
        (hp x (List.mem_cons_self _ _)) hstep
      have hb1 := stage1Between_of_inv hinv1
      have := ih (ii + 1) out1 out2 hb1 (fun y hy => hp y (List.mem_cons_of_mem _ hy)) h
      have hlen : ii + 1 + xs.length = ii + (x :: xs).length := by simp; omega
      rw [hlen] at this
      exact this

theorem stage1Between_init (n_vregs : Nat) :
    stage1Between 0 (List.replicate n_vregs initVRegInfo) := by
  intro k
  rw [listGetD_replicate]
  by_cases hk : k < n_vregs
  · rw [if_pos hk]
    exact Or.inl rfl
  · rw [if_neg hk]
    exact Or.inl rfl

/- --------- Claim C3 (corrected): the amended theorem --------- -/

/-- C3 as amended: when the stage-1 scan accepts the stream without a
fatal error, every vreg_info entry satisfies live_after = -1 or
0 <= live_after < dead_before <= n_instrs, provided that in each
instruction's getRegUsage listing no Read of a vreg index comes after
a Write of the same vreg index (the spec's reads-before-writes
convention); the counterexample shows the unrestricted order claim
fails. -/
theorem C3_liveness_invariant {α : Type} (getU : α → HRegUsage) (n_vregs : Nat)
    (instrs : List α) (out : List VRegInfo)
    (h : stage1 getU n_vregs instrs = .ok out)
    (horder : ∀ x ∈ instrs, (getU x).Pairwise noWriteThenRead) :
    ∀ v ∈ out, vregInvariant instrs.length v := by
  have hb := stage1Between_go getU n_vregs instrs 0 _ out (stage1Between_init n_vregs) horder h
  intro v hv
  obtain ⟨k, hk, rfl⟩ := List.mem_iff_getElem.mp hv
  have hinv := hb k
  rw [List.getD_eq_getElem out initVRegInfo hk] at hinv
  simpa [vregInvariant] using hinv

/-- Witness for C3 at a concrete accepted input. -/
theorem C3_liveness_invariant_witness :
    stage1 (fun u : HRegUsage => u) 1 [[(v0, .HRmWrite)], [(v0, .HRmRead)]] =
      .ok [{ initVRegInfo with live_after := 0, dead_before := 1 }] ∧
    vregInvariant 2 { initVRegInfo with live_after := 0, dead_before := 1 } := by
  have hrun : stage1 (fun u : HRegUsage => u) 1 [[(v0, .HRmWrite)], [(v0, .HRmRead)]] =
      .ok [{ initVRegInfo with live_after := 0, dead_before := 1 }] := rfl
  have horder : ∀ x ∈ [[((v0 : HReg), HRegMode.HRmWrite)], [(v0, HRegMode.HRmRead)]],
      x.Pairwise noWriteThenRead := by
    intro x hx
    simp only [List.mem_cons, List.not_mem_nil, or_false] at hx
    rcases hx with rfl | rfl
    · exact List.pairwise_singleton _ _
    · exact List.pairwise_singleton _ _
  have h := C3_liveness_invariant (fun u : HRegUsage => u) 1
    [[(v0, .HRmWrite)], [(v0, .HRmRead)]] _ hrun horder
    { initVRegInfo with live_after := 0, dead_before := 1 } (by simp)
  exact ⟨hrun, by simpa using h⟩

/- --------- Stage-3 lemmas (for C7) --------- -/

theorem stage3Go_slots :
    ∀ (vs : List VRegInfo) (busy : List Int) (out : List VRegInfo),
      stage3Go busy vs = .ok out →
      (∀ v ∈ vs, v.live_after ≠ -1 → v.live_after < v.dead_before) →
      ∀ n, n < out.length → (out.getD n initVRegInfo).live_after ≠ -1 →
        ∃ j : Nat, j < busy.length ∧
          (out.getD n initVRegInfo).spill_offset = 8 * (j : Int) ∧
          busy.getD j 0 ≤ (out.getD n initVRegInfo).live_after := by
  intro vs
  induction vs with
  | nil =>
    intro busy out h _ n hn
    cases h
    simp at hn
  | cons v vs ih =>
    intro busy out h H1 n hn hu
    by_cases hla : v.live_after = -1
    · cases hrec : stage3Go busy vs with
      | error e => simp [stage3Go, hla, hrec] at h
      | ok rest =>
        simp only [stage3Go, hla, if_true, if_pos, hrec, Except.ok.injEq] at h
        subst h
        cases n with
        | zero =>
          rw [List.getD_cons_zero] at hu
          exact absurd hla hu
        | succ n0 =>
          rw [List.getD_cons_succ] at hu ⊢
          exact ih busy rest hrec (fun w hw => H1 w (List.mem_cons_of_mem _ hw)) n0
            (by simpa using Nat.lt_of_succ_lt_succ hn) hu
    · cases hfit : lowestFit v.live_after busy with
      | none => simp [stage3Go, hla, hfit] at h
      | some j =>
        obtain ⟨hjlen, hjle, _⟩ := lowestFit_some v.live_after busy j hfit
        cases hrec : stage3Go (busy.set j v.dead_before) vs with
        | error e => simp [stage3Go, hla, hfit, hrec] at h
        | ok rest =>
          simp only [stage3Go, hla, if_false, hfit, hrec, ite_false, Except.ok.injEq] at h
          subst h
          cases n with
          | zero =>
            rw [List.getD_cons_zero]
            exact ⟨j, hjlen, rfl, hjle⟩
          | succ n0 =>
            rw [List.getD_cons_succ] at hu ⊢
            obtain ⟨j2, hj2len, hj2off, hj2le⟩ :=
              ih (busy.set j v.dead_before) rest hrec
                (fun w hw => H1 w (List.mem_cons_of_mem _ hw)) n0
                (by simpa using Nat.lt_of_succ_lt_succ hn) hu
            refine ⟨j2, by simpa using hj2len, hj2off, ?_⟩
            by_cases hjj : j2 = j
            · subst hjj
              rw [listGetD_set_self busy j2 _ 0 (by simpa using hjlen)] at hj2le
              have hdb : v.live_after < v.dead_before := H1 v (List.mem_cons_self _ _) hla
              omega
            · rw [listGetD_set_ne busy j j2 _ 0 (fun hh => hjj hh.symm)] at hj2le
              exact hj2le

theorem stage3Go_disjoint :
    ∀ (vs : List VRegInfo) (busy : List Int) (out : List VRegInfo),
      stage3Go busy vs = .ok out →
      (∀ v ∈ vs, v.live_after ≠ -1 → v.live_after < v.dead_before) →
      ∀ p q : Nat, p < q → q < out.length →
        (out.getD p initVRegInfo).live_after ≠ -1 →
        (out.getD q initVRegInfo).live_after ≠ -1 →
        (out.getD p initVRegInfo).spill_offset = (out.getD q initVRegInfo).spill_offset →
        (out.getD p initVRegInfo).dead_before ≤ (out.getD q initVRegInfo).live_after := by
  intro vs
  induction vs with
  | nil =>
    intro busy out h _ p q hpq hq
    cases h
    simp at hq
  | cons v vs ih =>
    intro busy out h H1 p q hpq hq hup huq hoff
    by_cases hla : v.live_after = -1
    · cases hrec : stage3Go busy vs with
      | error e => simp [stage3Go, hla, hrec] at h
      | ok rest =>
        simp only [stage3Go, hla, if_true, if_pos, hrec, Except.ok.injEq] at h
        subst h
        cases p with
        | zero =>
          rw [List.getD_cons_zero] at hup
          exact absurd hla hup
        | succ p0 =>
          obtain ⟨q0, rfl⟩ : ∃ q0, q = q0 + 1 := ⟨q - 1, by omega⟩
          rw [List.getD_cons_succ] at hup huq hoff ⊢
          exact ih busy rest hrec (fun w hw => H1 w (List.mem_cons_of_mem _ hw)) p0 q0
            (by omega) (by simpa using Nat.lt_of_succ_lt_succ hq) hup huq hoff
    · cases hfit : lowestFit v.live_after busy with
      | none => simp [stage3Go, hla, hfit] at h
      | some j =>
        obtain ⟨hjlen, _, _⟩ := lowestFit_some v.live_after busy j hfit
        cases hrec : stage3Go (busy.set j v.dead_before) vs with
        | error e => simp [stage3Go, hla, hfit, hrec] at h
        | ok rest =>
          simp only [stage3Go, hla, if_false, hfit, hrec, ite_false, Except.ok.injEq] at h
          subst h
          cases p with
          | zero =>
            obtain ⟨q0, rfl⟩ : ∃ q0, q = q0 + 1 := ⟨q - 1, by omega⟩
            rw [List.getD_cons_zero] at hoff ⊢
            rw [List.getD_cons_succ] at huq hoff ⊢
            obtain ⟨j2, hj2len, hj2off, hj2le⟩ :=
              stage3Go_slots vs (busy.set j v.dead_before) rest hrec
                (fun w hw => H1 w (List.mem_cons_of_mem _ hw)) q0
                (by simpa using Nat.lt_of_succ_lt_succ hq) huq
            have hjeq : j2 = j := by
              have h8 : (8 : Int) * (j : Int) = 8 * (j2 : Int) := by
                have hoff2 := hoff
                rw [hj2off] at hoff2
                simpa using hoff2
              omega
            subst hjeq
            rw [listGetD_set_self busy j2 _ 0 (by simpa using hjlen)] at hj2le
            exact hj2le
          | succ p0 =>
            obtain ⟨q0, rfl⟩ : ∃ q0, q = q0 + 1 := ⟨q - 1, by omega⟩
            rw [List.getD_cons_succ] at hup huq hoff ⊢
            exact ih (busy.set j v.dead_before) rest hrec
              (fun w hw => H1 w (List.mem_cons_of_mem _ hw)) p0 q0
              (by omega) (by simpa using Nat.lt_of_succ_lt_succ hq) hup huq hoff

/- --------- Claim C7 --------- -/

/-- C7: under the preconditions that every used vreg has
live_after < dead_before and that live_after is non-decreasing in
vreg index, stage 3 gives two distinct used vregs with overlapping
live intervals different spill offsets. -/
theorem C7_spill_slots_disjoint (nss : Nat) (vi out : List VRegInfo)
    (h : stage3 nss vi = .ok out)
    (H1 : ∀ v ∈ vi, v.live_after ≠ -1 → v.live_after < v.dead_before)
    (H2 : vi.Pairwise (fun a b =>
      a.live_after ≠ -1 → b.live_after ≠ -1 → a.live_after ≤ b.live_after))
    (p q : Nat) (hp : p < out.length) (hq : q < out.length) (hpq : p ≠ q)
    (hup : (out.getD p initVRegInfo).live_after ≠ -1)
    (huq : (out.getD q initVRegInfo).live_after ≠ -1)
    (hov : (out.getD p initVRegInfo).live_after < (out.getD q initVRegInfo).dead_before ∧
           (out.getD q initVRegInfo).live_after < (out.getD p initVRegInfo).dead_before) :
    (out.getD p initVRegInfo).spill_offset ≠ (out.getD q initVRegInfo).spill_offset := by
  intro heq
  rcases Nat.lt_or_ge p q with hlt | hge
  · have hd := stage3Go_disjoint vi (List.replicate nss 0) out h H1 p q hlt hq hup huq heq
    omega
  · have hqp : q < p := by omega
    have hd := stage3Go_disjoint vi (List.replicate nss 0) out h H1 q p hqp hp huq hup heq.symm
    omega

/-- Witness for C7 at a concrete input: two overlapping vregs get
offsets 0 and 8. -/
theorem C7_spill_slots_disjoint_witness :
    stage3 2 [viA, viB] = .ok [{ viA with spill_offset := 0 }, { viB with spill_offset := 8 }] ∧
    ({ viA with spill_offset := 0 } : VRegInfo).spill_offset ≠
      ({ viB with spill_offset := 8 } : VRegInfo).spill_offset := by
  have hrun : stage3 2 [viA, viB] =
      .ok [{ viA with spill_offset := 0 }, { viB with spill_offset := 8 }] := rfl
  have H1 : ∀ v ∈ [viA, viB], v.live_after ≠ -1 → v.live_after < v.dead_before := by decide
  have H2 : List.Pairwise (fun a b =>
      a.live_after ≠ -1 → b.live_after ≠ -1 → a.live_after ≤ b.live_after) [viA, viB] := by
    constructor
    · intro b hb
      simp only [List.mem_cons, List.not_mem_nil, or_false] at hb
      subst hb
      decide
    · constructor
      · intro b hb
        simp at hb
      · constructor
  have h := C7_spill_slots_disjoint 2 [viA, viB] _ hrun H1 H2 0 1 (by decide) (by decide)
    (by decide) (by decide) (by decide) (by decide)
  exact ⟨hrun, h⟩

/- --------- Stage-5 lemmas (for C8 and C10) --------- -/

theorem expire_allFree (n_vregs : Nat) (vi : List VRegInfo) (ii : Nat) :
    ∀ st : List RRegState, (∀ e ∈ st, e.disp = RRegDisp.Free) →
      expire n_vregs vi ii st = .ok st := by
  intro st
  induction st with
  | nil => intro _; rfl
  | cons e rest ih =>
    intro h
    have he : e.disp = RRegDisp.Free := h e (List.mem_cons_self _ _)
    have hrest := ih (fun f hf => h f (List.mem_cons_of_mem _ hf))
    simp [expire, he, hrest]

theorem check1_used_zero (rinfo : RRegInfoArr) (st : List RRegState) (ii : Nat)
    (h : rinfo.used = 0) : check1 rinfo st ii = .ok () := by
  simp [check1, hardRanges, h]

theorem check2_allFree (rinfo : RRegInfoArr) (st : List RRegState) (ii : Nat)
    (h : ∀ e ∈ st, e.disp = RRegDisp.Free) : check2 rinfo st ii = .ok () := by
  unfold check2
  rw [if_pos]
  rw [List.all_eq_true]
  intro e he
  rw [h e he]
  rfl

theorem check3Go_allFree :
    ∀ st : List RRegState, (∀ e ∈ st, e.disp = RRegDisp.Free) → check3Go st = true := by
  intro st
  induction st with
  | nil => intro _; rfl
  | cons e rest ih =>
    intro h
    have he : e.disp = RRegDisp.Free := h e (List.mem_cons_self _ _)
    have hrest := ih (fun f hf => h f (List.mem_cons_of_mem _ hf))
    simp [check3Go, he, hrest]

theorem check3_allFree (st : List RRegState)
    (h : ∀ e ∈ st, e.disp = RRegDisp.Free) : check3 st = .ok () := by
  simp [check3, check3Go_allFree st h]

theorem check4_allFree (st : List RRegState)
    (h : ∀ e ∈ st, e.disp = RRegDisp.Free) : check4 st = .ok () := by
  unfold check4
  rw [if_pos]
  rw [List.all_eq_true]
  intro e he
  rw [h e he]
  rfl

theorem stage5Checks_ok (rinfo : RRegInfoArr) (st : List RRegState) (ii : Nat)
    (hused : rinfo.used = 0) (hfree : ∀ e ∈ st, e.disp = RRegDisp.Free) :
    stage5Checks rinfo st ii = .ok () := by
  simp [stage5Checks, check1_used_zero rinfo st ii hused, check2_allFree rinfo st ii hfree,
    check3_allFree st hfree, check4_allFree st hfree]

theorem stage5ImplGo_ok_allFree (n_vregs : Nat) (vi : List VRegInfo) (rinfo : RRegInfoArr)
    (hused : rinfo.used = 0) :
    ∀ (fuel ii : Nat) (st : List RRegState), (∀ e ∈ st, e.disp = RRegDisp.Free) →
      ∃ states, stage5ImplGo n_vregs vi rinfo fuel ii st = .ok states ∧
        ∀ s ∈ states, ∀ e ∈ s, e.disp = RRegDisp.Free := by
  intro fuel
  induction fuel with
  | zero =>
    intro ii st hfree
    refine ⟨[st], rfl, ?_⟩
    intro s hs
    simp only [List.mem_singleton] at hs
    subst hs
    exact hfree
  | succ fuel ih =>
    intro ii st hfree
    obtain ⟨states, hok, hall⟩ := ih (ii + 1) st hfree
    refine ⟨st :: states, ?_, ?_⟩
    · simp [stage5ImplGo, stage5Checks_ok rinfo st ii hused hfree,
        expire_allFree n_vregs vi ii st hfree, hok]
    · intro s hs
      rcases List.mem_cons.mp hs with rfl | hs2
      · exact hfree
      · exact hall s hs2

theorem stage5ImplGo_states_allFree (n_vregs : Nat) (vi : List VRegInfo) (rinfo : RRegInfoArr) :
    ∀ (fuel ii : Nat) (st : List RRegState) (states : List (List RRegState)),
      (∀ e ∈ st, e.disp = RRegDisp.Free) →
      stage5ImplGo n_vregs vi rinfo fuel ii st = .ok states →
      ∀ s ∈ states, ∀ e ∈ s, e.disp = RRegDisp.Free := by
  intro fuel
  induction fuel with
  | zero =>
    intro ii st states hfree h
    have h2 : ([st] : List (List RRegState)) = states := by
      simpa [stage5ImplGo] using h
    subst h2
    intro s hs
    simp only [List.mem_singleton] at hs
    subst hs
    exact hfree
  | succ fuel ih =>
    intro ii st states hfree h
    cases hc : stage5Checks rinfo st ii with
    | error e =>
      simp only [stage5ImplGo, hc] at h
      exact Except.noConfusion h
    | ok u =>
      cases hexp : expire n_vregs vi ii st with
      | error e =>
        simp only [stage5ImplGo, hc, hexp] at h
        exact Except.noConfusion h
      | ok st2 =>
        have hst2 : st2 = st := by
          rw [expire_allFree n_vregs vi ii st hfree] at hexp
          injection hexp with hh
          exact hh.symm
        subst hst2
        cases hr : stage5ImplGo n_vregs vi rinfo fuel (ii + 1) st2 with
        | error e =>
          simp only [stage5ImplGo, hc, hexp, hr] at h
          exact Except.noConfusion h
        | ok sts =>
          simp only [stage5ImplGo, hc, hexp, hr, Except.ok.injEq] at h
          subst h
          intro s hs
          rcases List.mem_cons.mp hs with rfl | hs2
          · exact hfree
          · exact ih (ii + 1) st2 sts hfree hr s hs2

theorem initRRegState_allFree (avail : List HReg) :
    ∀ e ∈ initRRegState avail, e.disp = RRegDisp.Free := by
  intro e he
  obtain ⟨r, _, rfl⟩ := List.mem_map.mp he
  rfl

/- --------- Stage-2 bookkeeping lemmas (for C2 and C10) --------- -/

theorem stage2Mention_counters (avail : List HReg) (ii : Nat) (s s2 : Stage2State)
    (m : HReg × HRegMode) (h : stage2Mention avail ii s m = .ok s2) :
    s2.info.used = s.info.used ∧ s2.info.size = s.info.size := by
  unfold stage2Mention at h
  by_cases hv : hregIsVirtual m.1 = true
  · rw [if_pos hv] at h
    injection h with h
    subst h
    exact ⟨rfl, rfl⟩
  · rw [if_neg hv] at h
    by_cases hir : hregToIndex m.1 avail = -1
    · rw [if_pos hir] at h
      injection h with h
      subst h
      exact ⟨rfl, rfl⟩
    · rw [if_neg hir] at h
      cases hm : m.2 with
      | HRmWrite =>
        simp only [hm] at h
        by_cases hfull : s.info.used = s.info.size
        · simp only [hfull, if_pos rfl, if_true] at h
          exact Except.noConfusion h
        · simp only [if_neg hfull] at h
          injection h with h
          subst h
          exact ⟨rfl, rfl⟩
      | HRmRead =>
        simp only [hm] at h
        by_cases hla : s.la.getD (hregToIndex m.1 avail).toNat (-1) = -1
        · rw [if_pos hla] at h
          exact Except.noConfusion h
        · rw [if_neg hla] at h
          injection h with h
          subst h
          exact ⟨rfl, rfl⟩
      | HRmModify =>
        simp only [hm] at h
        by_cases hla : s.la.getD (hregToIndex m.1 avail).toNat (-1) = -1
        · rw [if_pos hla] at h
          exact Except.noConfusion h
        · rw [if_neg hla] at h
          injection h with h
          subst h
          exact ⟨rfl, rfl⟩

theorem stage2Insn_counters (avail : List HReg) (ii : Nat) :
    ∀ (u : List (HReg × HRegMode)) (s s2 : Stage2State),
      stage2Insn avail ii s u = .ok s2 →
      s2.info.used = s.info.used ∧ s2.info.size = s.info.size := by
  intro u
  induction u with
  | nil =>
    intro s s2 h
    injection h with h
    subst h
    exact ⟨rfl, rfl⟩
  | cons m ms ih =>
    intro s s2 h
    rw [stage2Insn] at h
    cases hstep : stage2Mention avail ii s m with
    | error e => rw [hstep] at h; exact Except.noConfusion h
    | ok s1 =>
      rw [hstep] at h
      obtain ⟨h1, h2⟩ := stage2Mention_counters avail ii s s1 m hstep
      obtain ⟨h3, h4⟩ := ih s1 s2 h
      exact ⟨h3.trans h1, h4.trans h2⟩

theorem stage2Go_counters {α : Type} (getU : α → HRegUsage) (avail : List HReg) :
    ∀ (xs : List α) (ii : Nat) (s s2 : Stage2State),
      stage2Go getU avail ii s xs = .ok s2 →
      s2.info.used = s.info.used ∧ s2.info.size = s.info.size := by
  intro xs
  induction xs with
  | nil =>
    intro ii s s2 h
    injection h with h
    subst h
    exact ⟨rfl, rfl⟩
  | cons x xs ih =>
    intro ii s s2 h
    rw [stage2Go] at h
    cases hstep : stage2Insn avail ii s (getU x) with
    | error e => rw [hstep] at h; exact Except.noConfusion h
    | ok s1 =>
      rw [hstep] at h
      obtain ⟨h1, h2⟩ := stage2Insn_counters avail ii (getU x) s s1 hstep
      obtain ⟨h3, h4⟩ := ih (ii + 1) s1 s2 h
      exact ⟨h3.trans h1, h4.trans h2⟩

theorem stage2FinishGo_counters (avail : List HReg) (la db : List Int) :
    ∀ (idxs : List Nat) (info r : RRegInfoArr),
      stage2FinishGo avail la db info idxs = .ok r →
      r.used = info.used ∧ r.size = info.size := by
  intro idxs
  induction idxs with
  | nil =>
    intro info r h
    injection h with h
    subst h
    exact ⟨rfl, rfl⟩
  | cons ir rest ih =>
    intro info r h
    rw [stage2FinishGo] at h
    by_cases hla : la.getD ir (-1) = -1
    · rw [if_pos hla] at h
      exact ih info r h
    · rw [if_neg hla] at h
      by_cases hfull : info.used = info.size
      · rw [if_pos hfull] at h
        exact Except.noConfusion h
      · rw [if_neg hfull] at h
        obtain ⟨h1, h2⟩ := ih _ r h
        exact ⟨h1, h2⟩

theorem stage2_used_eq_zero {α : Type} (getU : α → HRegUsage) (instrs : List α)
    (avail : List HReg) (r : RRegInfoArr) (h : stage2 getU instrs avail = .ok r) :
    r.used = 0 ∧ r.size = 4 := by
  unfold stage2 at h
  by_cases hz : avail.length = 0
  · rw [if_pos hz] at h
    exact Except.noConfusion h
  · rw [if_neg hz] at h
    cases hgo : stage2Go getU avail 0
        ⟨List.replicate avail.length (-1), List.replicate avail.length (-1),
         initRRegInfoArr⟩ instrs with
    | error e => rw [hgo] at h; exact Except.noConfusion h
    | ok s =>
      rw [hgo] at h
      obtain ⟨h1, h2⟩ := stage2Go_counters getU avail instrs 0 _ s hgo
      obtain ⟨h3, h4⟩ := stage2FinishGo_counters avail s.la s.db _ s.info r h
      constructor
      · rw [h3, h1]; rfl
      · rw [h4, h2]; rfl

/- --------- Claim C8 --------- -/

/-- C8: at every instruction boundary of the stage-5 pass as
implemented, the map from Bound rreg_state entries to their held
vregs is injective (in this fragment no entry is ever Bound, so
there are no two Bound entries at all; C10 records that fact). -/
theorem C8_binding_injective (n_vregs : Nat) (vi : List VRegInfo) (rinfo : RRegInfoArr)
    (avail : List HReg) (n_instrs : Nat) (states : List (List RRegState))
    (h5 : stage5Impl n_vregs vi rinfo avail n_instrs = .ok states)
    (s : List RRegState) (hs : s ∈ states) : boundInjective s := by
  have hfree := stage5ImplGo_states_allFree n_vregs vi rinfo n_instrs 0 (initRRegState avail)
    states (initRRegState_allFree avail) h5 s hs
  intro p q hp hq hpq hbp hbq
  have hmem : s.getD p junkRRegState ∈ s := by
    rw [List.getD_eq_getElem s junkRRegState hp]
    exact List.getElem_mem hp
  have hfp := hfree _ hmem
  rw [hfp] at hbp
  exact RRegDisp.noConfusion hbp

/-- Witness for C8 at a concrete run of the implemented stage 5. -/
theorem C8_binding_injective_witness :
    (stage5Impl 0 [] initRRegInfoArr [R0] 1 =
      .ok [[⟨R0, RRegDisp.Free, INVALID_HREG⟩], [⟨R0, RRegDisp.Free, INVALID_HREG⟩]]) ∧
    boundInjective [⟨R0, RRegDisp.Free, INVALID_HREG⟩] := by
  have hrun : stage5Impl 0 [] initRRegInfoArr [R0] 1 =
      .ok [[⟨R0, RRegDisp.Free, INVALID_HREG⟩], [⟨R0, RRegDisp.Free, INVALID_HREG⟩]] := rfl
  exact ⟨hrun, C8_binding_injective 0 [] initRRegInfoArr [R0] 1 _ hrun
    [⟨R0, RRegDisp.Free, INVALID_HREG⟩] (List.mem_cons_self _ _)⟩

/- --------- Claim C10 --------- -/

/-- C10: in stage 5 as implemented, every rreg_state entry is Free at
every instruction boundary: initialisation makes all entries Free and
the only mutation in the loop, dead-binding expiry, can only turn
Bound into Free; with the rreg_info produced by stage 2 (whose used
count is never incremented) the sanity checks pass vacuously and the
loop completes, every boundary state being all Free (in particular no
entry is ever Unavail or Bound). -/
theorem C10_stage5_all_free {α : Type} (getU : α → HRegUsage) (instrs : List α)
    (avail : List HReg) (rinfo : RRegInfoArr) (n_vregs : Nat) (vi : List VRegInfo)
    (n_instrs : Nat) (h2 : stage2 getU instrs avail = .ok rinfo) :
    ∃ states, stage5Impl n_vregs vi rinfo avail n_instrs = .ok states ∧
      ∀ s ∈ states, ∀ e ∈ s, e.disp = RRegDisp.Free := by
  obtain ⟨hused, _⟩ := stage2_used_eq_zero getU instrs avail rinfo h2
  exact stage5ImplGo_ok_allFree n_vregs vi rinfo hused n_instrs 0 (initRRegState avail)
    (initRRegState_allFree avail)

/-- Witness for C10 at a concrete input. -/
theorem C10_stage5_all_free_witness :
    ∃ states,
      stage5Impl 0 []
          (⟨4, 0, [⟨R0, 0, 1⟩, junkRRegInfo, junkRRegInfo, junkRRegInfo]⟩ : RRegInfoArr)
          [R0] 1 = .ok states ∧
      ∀ s ∈ states, ∀ e ∈ s, e.disp = RRegDisp.Free :=
  C10_stage5_all_free (fun u : HRegUsage => u) [[(R0, HRegMode.HRmWrite)]] [R0]
    (⟨4, 0, [⟨R0, 0, 1⟩, junkRRegInfo, junkRRegInfo, junkRRegInfo]⟩ : RRegInfoArr)
    0 [] 1 rfl

/- --------- No-vreg lemmas (for C1) --------- -/

theorem stage1Insn_zero_nonvirt (ii : Nat) :
    ∀ (u : List (HReg × HRegMode)) (out out2 : List VRegInfo),
      stage1Insn 0 ii out u = .ok out2 →
      (∀ m ∈ u, hregIsVirtual m.1 = false) ∧ out2 = out := by
  intro u
  induction u with
  | nil =>
    intro out out2 h
    injection h with h
    subst h
    refine ⟨?_, rfl⟩
    intro m hm
    cases hm
  | cons m ms ih =>
    intro out out2 h
    rw [stage1Insn] at h
    by_cases hv : hregIsVirtual m.1 = false
    · rw [stage1Mention_nonvirt 0 ii out m hv] at h
      obtain ⟨h1, h2⟩ := ih out out2 h
      refine ⟨?_, h2⟩
      intro b hb
      rcases List.mem_cons.mp hb with rfl | hb2
      · exact hv
      · exact h1 b hb2
    · have hvt : hregIsVirtual m.1 = true := by
        revert hv; cases hregIsVirtual m.1 <;> simp
      rw [stage1Mention_oor 0 ii out m hvt (by intro ⟨a, b⟩; omega)] at h
      exact Except.noConfusion h

theorem stage1_zero_nonvirt {α : Type} (getU : α → HRegUsage) :
    ∀ (xs : List α) (ii : Nat) (out out2 : List VRegInfo),
      stage1Go getU 0 ii out xs = .ok out2 →
      ∀ x ∈ xs, ∀ m ∈ getU x, hregIsVirtual m.1 = false := by
  intro xs
  induction xs with
  | nil =>
    intro ii out out2 _ x hx
    cases hx
  | cons x xs ih =>
    intro ii out out2 h y hy
    rw [stage1Go] at h
    cases hstep : stage1Insn 0 ii out (getU x) with
    | error e => rw [hstep] at h; exact Except.noConfusion h
    | ok out1 =>
      rw [hstep] at h
      rcases List.mem_cons.mp hy with rfl | hy2
      · exact (stage1Insn_zero_nonvirt ii (getU y) out out1 hstep).1
      · exact ih (ii + 1) out1 out2 h y hy2

theorem reloadReads_nonvirt {α : Type} (gS gR : HReg → Int → α) (vi : List VRegInfo)
    (rinfo : RRegInfoArr) (ii : Nat) (u : HRegUsage) :
    ∀ (ms : List (HReg × HRegMode)) (st : List RRegState),
      (∀ m ∈ ms, hregIsVirtual m.1 = false) →
      reloadReads gS gR vi rinfo ii u ms st = .ok (st, []) := by
  intro ms
  induction ms with
  | nil => intro st _; rfl
  | cons m ms ih =>
    intro st h
    have hm : hregIsVirtual m.1 = false := h m (List.mem_cons_self _ _)
    have hrest := ih st (fun b hb => h b (List.mem_cons_of_mem _ hb))
    simp [reloadReads, hm, hrest]

theorem allocWrites_nonvirt {α : Type} (gS : HReg → Int → α) (vi : List VRegInfo)
    (rinfo : RRegInfoArr) (ii : Nat) (u : HRegUsage) :
    ∀ (ms : List (HReg × HRegMode)) (st : List RRegState),
      (∀ m ∈ ms, hregIsVirtual m.1 = false) →
      allocWrites gS vi rinfo ii u ms st = .ok (st, []) := by
  intro ms
  induction ms with
  | nil => intro st _; rfl
  | cons m ms ih =>
    intro st h
    have hm : hregIsVirtual m.1 = false := h m (List.mem_cons_self _ _)
    have hrest := ih st (fun b hb => h b (List.mem_cons_of_mem _ hb))
    simp [allocWrites, hm, hrest]

theorem buildMap_nonvirt (st : List RRegState) :
    ∀ ms : List (HReg × HRegMode),
      (∀ m ∈ ms, hregIsVirtual m.1 = false) →
      buildMap st ms = .ok [] := by
  intro ms
  induction ms with
  | nil => intro _; rfl
  | cons m ms ih =>
    intro h
    have hm : hregIsVirtual m.1 = false := h m (List.mem_cons_self _ _)
    have hrest := ih (fun b hb => h b (List.mem_cons_of_mem _ hb))
    simp [buildMap, hm, hrest]

theorem hardRanges_used_zero (rinfo : RRegInfoArr) (h : rinfo.used = 0) :
    hardRanges rinfo = [] := by
  simp [hardRanges, h]

theorem stage5SpecGo_echo {α : Type} (getU : α → HRegUsage)
    (mapR : List (HReg × HReg) → α → α) (gS gR : HReg → Int → α)
    (n_vregs : Nat) (vi : List VRegInfo) (rinfo : RRegInfoArr)
    (hused : rinfo.used = 0)
    (hmap : ∀ x, (∀ m ∈ getU x, hregIsVirtual m.1 = false) → mapR [] x = x) :
    ∀ (xs : List α) (ii : Nat) (st : List RRegState),
      (∀ e ∈ st, e.disp = RRegDisp.Free) →
      (∀ x ∈ xs, ∀ m ∈ getU x, hregIsVirtual m.1 = false) →
      stage5SpecGo getU mapR gS gR n_vregs vi rinfo ii st xs = .ok xs := by
  intro xs
  induction xs with
  | nil => intro ii st _ _; rfl
  | cons x xs ih =>
    intro ii st hfree hnv
    have hx : ∀ m ∈ getU x, hregIsVirtual m.1 = false := hnv x (List.mem_cons_self _ _)
    have hxs := ih (ii + 1) st hfree (fun y hy => hnv y (List.mem_cons_of_mem _ hy))
    simp [stage5SpecGo, stage5Checks_ok rinfo st ii hused hfree,
      expire_allFree n_vregs vi ii st hfree, hardRanges_used_zero rinfo hused,
      expireHard, markUnavail,
      reloadReads_nonvirt gS gR vi rinfo ii (getU x) (getU x) st hx,
      allocWrites_nonvirt gS vi rinfo ii (getU x) (getU x) st hx,
      buildMap_nonvirt st (getU x) hx, hmap x hx, hxs]

/- --------- Claim C1 --------- -/

/-- C1: with n_vregs = 0 (and at least one available real register)
whatever instruction list doRegisterAllocation returns equals the
input list instrs, with no spill or restore instructions emitted.
The hmap hypothesis is the mapRegs contract of the spec: rewriting
under the empty substitution an instruction that mentions no virtual
register returns the instruction itself. -/
theorem C1_no_vregs {α : Type} (getU : α → HRegUsage) (mapR : List (HReg × HReg) → α → α)
    (gS gR : HReg → Int → α) (instrs : List α) (avail : List HReg) (nss : Nat)
    (out : List α)
    (hmap : ∀ x, (∀ m ∈ getU x, hregIsVirtual m.1 = false) → mapR [] x = x)
    (hnv : 0 < avail.length)
    (h : doRegisterAllocation getU mapR gS gR 0 instrs avail nss = .ok out) :
    out = instrs := by
  unfold doRegisterAllocation at h
  cases h1 : stage1 getU 0 instrs with
  | error e =>
    rw [h1] at h
    exact Except.noConfusion h
  | ok vi =>
    cases h2 : stage2 getU instrs avail with
    | error e =>
      simp only [h1, h2] at h
      exact Except.noConfusion h
    | ok rinfo =>
      cases h3 : stage3 nss vi with
      | error e =>
        simp only [h1, h2, h3] at h
        exact Except.noConfusion h
      | ok vi2 =>
        simp only [h1, h2, h3] at h
        have hnvirt := stage1_zero_nonvirt getU instrs 0 _ vi h1
        obtain ⟨hused, _⟩ := stage2_used_eq_zero getU instrs avail rinfo h2
        have hecho := stage5SpecGo_echo getU mapR gS gR 0 vi2 rinfo hused hmap instrs 0
          (initRRegState avail) (initRRegState_allFree avail) hnvirt
        rw [hecho] at h
        injection h with h
        exact h.symm

/-- Witness for C1 at a concrete input: a one-instruction stream that
only writes the real register R0 comes back unchanged. -/
theorem C1_no_vregs_witness :
    doRegisterAllocation (fun _ : Nat => ([(R0, HRegMode.HRmWrite)] : HRegUsage))
      (fun _ x => x) (fun _ _ => 0) (fun _ _ => 0) 0 [7] [R0] 16 = .ok [7] ∧
    ([7] : List Nat) = [7] := by
  have hrun : doRegisterAllocation (fun _ : Nat => ([(R0, HRegMode.HRmWrite)] : HRegUsage))
      (fun _ x => x) (fun _ _ => 0) (fun _ _ => 0) 0 [7] [R0] 16 = .ok [7] := rfl
  exact ⟨hrun, C1_no_vregs (fun _ : Nat => ([(R0, HRegMode.HRmWrite)] : HRegUsage))
    (fun _ x => x) (fun _ _ => 0) (fun _ _ => 0) [7] [R0] 16 [7]
    (fun x _ => rfl) (by decide) hrun⟩
